import Mathlib

/-!
Shallow embedding of src/Album_cover.py (class AlbumCoverFinder and the
worker-side pipeline).  Effectful library calls (mutagen tag reading,
os.path.exists, os.walk, requests, the Qt UI thread) are modelled as
explicit oracle functions passed in as arguments; file writes are returned
as explicit lists.  Python strings are Lean strings; Python str.endswith is
character-suffix testing on the underlying character list.
-/

namespace AlbumCover

/-- Python str.endswith for a single suffix: character-list suffix test. -/
def pyEndsWith (s suffix : String) : Bool :=
  List.isSuffixOf suffix.data s.data

/-- Python str.lower, character by character (the repository only deals in
ASCII extensions). -/
def pyLower (s : String) : String :=
  ⟨s.data.map Char.toLower⟩

/-- os.path.join for a relative second component (POSIX). -/
def osPathJoin (a b : String) : String :=
  a ++ "/" ++ b

/-- os.path.dirname: everything before the final path separator. -/
def dirname (p : String) : String :=
  ⟨((p.data.reverse.dropWhile (fun c => c ≠ '/')).drop 1).reverse⟩

/-- os.path.basename: the component after the final path separator. -/
def basename (p : String) : String :=
  ⟨(p.data.reverse.takeWhile (fun c => c ≠ '/')).reverse⟩

/-- Python truthiness of an Optional[str]: None and the empty string are falsy. -/
def pyTruthyStr : Option String → Bool
  | none => false
  | some s => s != ""

/-- The audio-extension test used at lines 102, 309/325/346 and 1016 of the
source: lowercased name ends in .flac, .mp3 or .m4a. -/
def endsWithAudioExt (lowercase_file : String) : Bool :=
  pyEndsWith lowercase_file ".flac" || pyEndsWith lowercase_file ".mp3" ||
    pyEndsWith lowercase_file ".m4a"

/-- find_audio_files (lines 97-103).  The os.walk result for the chosen
folder is supplied as a list of (root, files-in-root) pairs; matching files
are appended to the running audio_files field, in walk order. -/
def find_audio_files (walk : List (String × List String))
    (audio_files : List String) : List String :=
  walk.foldl
    (fun acc rootFiles =>
      acc ++ (rootFiles.2.filter (fun file => endsWithAudioExt (pyLower file))).map
        (fun file => osPathJoin rootFiles.1 file))
    audio_files

/-- The dict returned by get_audio_metadata (lines 128-153) when no
exception occurs and the extension is recognised; the oracle returns none
for the other outcomes (both make extract_album_info skip the file). -/
structure Metadata where
  album : String
  artist : String
deriving Repr, DecidableEq

/-- One value of the albums dict (lines 118-123). -/
structure AlbumData where
  artist : String
  album : String
  path : String
  files : List String
deriving Repr, DecidableEq

/-- The album grouping key of line 114: the f-string "{artist}_{album}". -/
def albumKey (artist album : String) : String :=
  artist ++ "_" ++ album

/-- Lines 113-126: insert one file into the insertion-ordered albums dict. -/
def addAlbumFile (albums : List (String × AlbumData)) (m : Metadata)
    (file_path : String) : List (String × AlbumData) :=
  let album_key := albumKey m.artist m.album
  let folder_path := dirname file_path
  if (albums.find? (fun kv => kv.1 == album_key)).isSome then
    albums.map (fun kv =>
      if kv.1 == album_key then
        (kv.1, { kv.2 with files := kv.2.files ++ [file_path] })
      else kv)
  else
    albums ++ [(album_key,
      { artist := m.artist, album := m.album, path := folder_path,
        files := [file_path] })]

/-- One iteration of the extract_album_info loop (lines 107-126): skip the
file when metadata reading failed or artist or album is falsy (empty). -/
def extractStep (get_audio_metadata : String → Option Metadata)
    (albums : List (String × AlbumData)) (file_path : String) :
    List (String × AlbumData) :=
  match get_audio_metadata file_path with
  | none => albums
  | some m =>
    if m.album ≠ "" ∧ m.artist ≠ "" then addAlbumFile albums m file_path
    else albums

/-- extract_album_info (lines 105-126).  A Python dict iterates in insertion
order, so the albums dict is an insertion-ordered association list. -/
def extract_album_info (get_audio_metadata : String → Option Metadata)
    (audio_files : List String) : List (String × AlbumData) :=
  audio_files.foldl (extractStep get_audio_metadata) []

/-- What the mutagen containers hold for one file, plus whether opening the
file raises (the except-branches of lines 151-153 and 193-195). -/
structure FileContent where
  readError : Bool
  flacPictures : Nat
  apicFrames : Nat
  hasCovr : Bool
deriving Repr, DecidableEq

/-- has_embedded_cover (lines 173-195): format dispatch on the lowercased
path, False for unrecognised extensions, False when reading raises. -/
def has_embedded_cover (content : String → FileContent) (file_path : String) : Bool :=
  let file_lower := pyLower file_path
  if pyEndsWith file_lower ".flac" then
    if (content file_path).readError then false
    else decide (0 < (content file_path).flacPictures)
  else if pyEndsWith file_lower ".mp3" then
    if (content file_path).readError then false
    else decide (0 < (content file_path).apicFrames)
  else if pyEndsWith file_lower ".m4a" then
    if (content file_path).readError then false
    else (content file_path).hasCovr
  else false

/-- find_files_with_embedded_covers (lines 163-171). -/
def find_files_with_embedded_covers (content : String → FileContent)
    (file_paths : List String) : List String :=
  file_paths.filter (fun file_path => has_embedded_cover content file_path)

/-- self.cover_filenames (lines 33-35), in source order. -/
def cover_filenames : List String :=
  ["cover.jpg", "cover.png", "folder.jpg", "folder.png",
   "album.jpg", "album.png", "front.jpg", "front.png",
   "artwork.jpg", "artwork.png", "albumart.jpg", "albumart.png"]

/-- The for-loop of find_existing_cover (lines 157-161). -/
def findCoverLoop (path_exists : String → Bool) (folder_path : String) :
    List String → Option String
  | [] => none
  | filename :: rest =>
    let cover_path := osPathJoin folder_path filename
    if path_exists cover_path then some cover_path
    else findCoverLoop path_exists folder_path rest

/-- find_existing_cover (lines 155-161); os.path.exists is the oracle. -/
def find_existing_cover (path_exists : String → Bool) (folder_path : String) :
    Option String :=
  findCoverLoop path_exists folder_path cover_filenames

/-- One entry of the Deezer response's data array, restricted to the keys
the code reads (lines 260-264). -/
structure DeezerAlbum where
  cover_big : String
  title : String
  artist_name : String
deriving Repr, DecidableEq

/-- Outcome of requests.get(url).json() in get_album_covers: an exception
anywhere in the try block, or a JSON object whose data key is absent (none)
or holds a list of albums. -/
inductive DeezerResponse where
  | error : DeezerResponse
  | response (data : Option (List DeezerAlbum)) : DeezerResponse
deriving Repr, DecidableEq

/-- One cover dict appended at lines 260-264. -/
structure Cover where
  url : String
  album_title : String
  artist_name : String
deriving Repr, DecidableEq

/-- The dict built from one Deezer album (lines 260-264). -/
def coverOfAlbum (a : DeezerAlbum) : Cover :=
  { url := a.cover_big, album_title := a.title, artist_name := a.artist_name }

/-- The enumerate loop of lines 257-264 with its break at i >= max_results. -/
def collectCovers (max_results : Nat) : Nat → List DeezerAlbum → List Cover
  | _, [] => []
  | i, a :: rest =>
    if max_results ≤ i then []
    else coverOfAlbum a :: collectCovers max_results (i + 1) rest

/-- get_album_covers (lines 246-268); the network and JSON parsing are the
oracle, keyed by the artist and album the query is built from. -/
def get_album_covers (search : String → String → DeezerResponse)
    (artist album : String) (max_results : Nat) : List Cover :=
  match search artist album with
  | DeezerResponse.error => []
  | DeezerResponse.response none => []
  | DeezerResponse.response (some data) =>
    if data.isEmpty then [] else collectCovers max_results 0 data

/-- save_album_cover (lines 270-280).  The download oracle yields the body
bytes or none for an exception; write_ok tells whether opening and writing
the target path succeeds.  Returns the Python return value paired with the
list of (path, bytes) writes performed. -/
def save_album_cover (download : String → Option String)
    (write_ok : String → Bool) (url folder_path : String) :
    Option String × List (String × String) :=
  let cover_path := osPathJoin folder_path "cover.jpg"
  match download url with
  | none => (none, [])
  | some image_data =>
    if write_ok cover_path then (some cover_path, [(cover_path, image_data)])
    else (none, [])

/-- Oracles for embed_cover_to_files: os.path.exists, whether reading the
cover image raises (with the exception text used in the message), and
whether the per-file embedding body raises for a given audio file. -/
structure EmbedEnv where
  path_exists : String → Bool
  read_ok : String → Bool
  read_err_msg : String
  embed_ok : String → Bool

/-- embed_cover_to_files (lines 283-366).  The chosen MIME type (lines
295-298) only flows into the tag bodies, which the oracle abstracts, so it
does not appear among the observables.  Returns the (bool, message) result
paired with the list of audio files actually rewritten: a file is rewritten
when its extension is one of the three handled formats and its embedding
body ran without an exception. -/
def embed_cover_to_files (env : EmbedEnv) (cover_path : String)
    (audio_files : List String) : (Bool × String) × List String :=
  if cover_path = "" ∨ env.path_exists cover_path = false then
    ((false, "Cover file does not exist"), [])
  else if env.read_ok cover_path = false then
    ((false, "Failed to read cover image: " ++ env.read_err_msg), [])
  else
    let success_count := (audio_files.filter (fun f => env.embed_ok f)).length
    let failed_files :=
      (audio_files.filter (fun f => !(env.embed_ok f))).map basename
    let modified :=
      audio_files.filter (fun f => endsWithAudioExt (pyLower f) && env.embed_ok f)
    if failed_files.isEmpty then
      ((true, "Successfully embedded cover in all " ++ toString success_count ++
        " files"), modified)
    else
      ((decide (0 < success_count),
        "Embedded cover in " ++ toString success_count ++ " files. Failed for " ++
          toString failed_files.length ++ " files: " ++
          String.intercalate ", " (failed_files.take 5) ++
          (if 5 < failed_files.length then "..." else "")), modified)

/-- The observable actions of the worker thread: the four pyqtSignal
emissions (lines 20-23) plus the Deezer query it issues, the
QApplication.processEvents calls and the msleep calls of the wait loop. -/
inductive Event where
  | progress (current total : Nat) : Event
  | albumFound (artist album cover_path : String) (is_new : Bool)
      (files_with_embedded : List String) : Event
  | deezerSearch (artist album : String) : Event
  | coverSelectionNeeded (artist album folder_path : String)
      (covers : List Cover) : Event
  | processEvents : Event
  | sleep (ms : Nat) : Event
  | finishedSignal : Event
deriving Repr, DecidableEq

/-- Recogniser for album_found emissions. -/
def Event.isAlbumFound : Event → Bool
  | Event.albumFound _ _ _ _ _ => true
  | _ => false

/-- Recogniser for progress_updated emissions. -/
def Event.isProgress : Event → Bool
  | Event.progress _ _ => true
  | _ => false

/-- Recogniser for the finished emission. -/
def Event.isFinishedSignal : Event → Bool
  | Event.finishedSignal => true
  | _ => false

/-- Recogniser for Deezer queries. -/
def Event.isDeezerSearch : Event → Bool
  | Event.deezerSearch _ _ => true
  | _ => false

/-- Recogniser for cover_selection_needed emissions. -/
def Event.isCoverSelectionNeeded : Event → Bool
  | Event.coverSelectionNeeded _ _ _ _ => true
  | _ => false

/-- Everything run interacts with.  ui_polls gives, per (artist, album),
how many iterations of the while loop at lines 75-78 observe
waiting_for_selection still True before the UI thread clears it; ui_result
is the selection_result the UI thread stored before clearing the flag
(MainWindow.show_cover_selection, lines 897-909). -/
structure Env where
  walk : List (String × List String)
  get_audio_metadata : String → Option Metadata
  path_exists : String → Bool
  content : String → FileContent
  search : String → String → DeezerResponse
  ui_polls : String → String → Nat
  ui_result : String → String → Option String

/-- The events of one wait-loop run of n iterations (lines 75-78): each
iteration processes Qt events and sleeps 100 ms. -/
def waitLoopEvents : Nat → List Event
  | 0 => []
  | n + 1 => Event.processEvents :: Event.sleep 100 :: waitLoopEvents n

/-- The per-album body of the run loop (lines 57-90), as the event list it
produces for one albums-dict entry. -/
def handleAlbum (env : Env) (d : AlbumData) : List Event :=
  let existing_cover := find_existing_cover env.path_exists d.path
  let files_with_embedded := find_files_with_embedded_covers env.content d.files
  match existing_cover with
  | some cover =>
    [Event.albumFound d.artist d.album cover false files_with_embedded]
  | none =>
    let covers := get_album_covers env.search d.artist d.album 4
    Event.deezerSearch d.artist d.album ::
      (if covers.isEmpty then
        [Event.albumFound d.artist d.album "" false files_with_embedded]
      else
        Event.coverSelectionNeeded d.artist d.album d.path covers ::
          (waitLoopEvents (env.ui_polls d.artist d.album) ++
            (if pyTruthyStr (env.ui_result d.artist d.album) then
              [Event.albumFound d.artist d.album
                ((env.ui_result d.artist d.album).getD "") true
                files_with_embedded]
            else
              [Event.albumFound d.artist d.album "" false
                files_with_embedded])))

/-- The for-loop over the albums dict (lines 51-93), threading the
albums_processed counter and emitting progress_updated after each album. -/
def runAlbums (env : Env) (total : Nat) :
    Nat → List (String × AlbumData) → List Event
  | _, [] => []
  | processed, kv :: rest =>
    handleAlbum env kv.2 ++
      (Event.progress (processed + 1) total ::
        runAlbums env total (processed + 1) rest)

/-- The albums dict run works on: the result of the discovery and grouping
stages (lines 44-47). -/
def pipelineAlbums (env : Env) : List (String × AlbumData) :=
  extract_album_info env.get_audio_metadata (find_audio_files env.walk [])

/-- run (lines 42-95): discovery, grouping, the per-album loop, finished. -/
def run (env : Env) : List Event :=
  let albums := pipelineAlbums env
  runAlbums env albums.length 0 albums ++ [Event.finishedSignal]

/-! ## Helper lemmas -/

/-- pyEndsWith is list-suffix on the character data. -/
theorem pyEndsWith_iff_suffix (s suffix : String) :
    pyEndsWith s suffix = true ↔ suffix.data <:+ s.data := by
  simp [pyEndsWith]

/-- A string ending in a suffix ends in that suffix's last character. -/
theorem getLast?_of_pyEndsWith (s suffix : String) (c : Char)
    (h : pyEndsWith s suffix = true) (hc : suffix.data.getLast? = some c) :
    s.data.getLast? = some c := by
  obtain ⟨t, ht⟩ := (pyEndsWith_iff_suffix s suffix).mp h
  rw [← ht, List.getLast?_append, hc]
  rfl

/-- Suffixes with different last characters are mutually exclusive. -/
theorem pyEndsWith_excl (s t₁ t₂ : String) (c₁ c₂ : Char)
    (h₁ : t₁.data.getLast? = some c₁) (h₂ : t₂.data.getLast? = some c₂)
    (hne : c₁ ≠ c₂) (h : pyEndsWith s t₁ = true) : pyEndsWith s t₂ = false := by
  cases hf : pyEndsWith s t₂
  · rfl
  · exact absurd
      (Option.some.inj ((getLast?_of_pyEndsWith s t₁ c₁ h h₁).symm.trans
        (getLast?_of_pyEndsWith s t₂ c₂ hf h₂)))
      hne

/-- Characterisation of has_embedded_cover used by claim C4. -/
theorem has_embedded_cover_iff (content : String → FileContent) (file_path : String) :
    has_embedded_cover content file_path = true ↔
      ((content file_path).readError = false ∧
        ((pyEndsWith (pyLower file_path) ".flac" = true ∧
            0 < (content file_path).flacPictures) ∨
         (pyEndsWith (pyLower file_path) ".mp3" = true ∧
            0 < (content file_path).apicFrames) ∨
         (pyEndsWith (pyLower file_path) ".m4a" = true ∧
            (content file_path).hasCovr = true))) := by
  have exm : pyEndsWith (pyLower file_path) ".mp3" = true →
      pyEndsWith (pyLower file_path) ".flac" = false :=
    pyEndsWith_excl _ ".mp3" ".flac" '3' 'c' (by decide) (by decide) (by decide)
  have exm4f : pyEndsWith (pyLower file_path) ".m4a" = true →
      pyEndsWith (pyLower file_path) ".flac" = false :=
    pyEndsWith_excl _ ".m4a" ".flac" 'a' 'c' (by decide) (by decide) (by decide)
  have exm4m : pyEndsWith (pyLower file_path) ".m4a" = true →
      pyEndsWith (pyLower file_path) ".mp3" = false :=
    pyEndsWith_excl _ ".m4a" ".mp3" 'a' '3' (by decide) (by decide) (by decide)
  simp only [has_embedded_cover]
  cases hfl : pyEndsWith (pyLower file_path) ".flac" <;>
    cases hmp : pyEndsWith (pyLower file_path) ".mp3" <;>
      cases hm4 : pyEndsWith (pyLower file_path) ".m4a" <;>
        cases hre : (content file_path).readError <;>
          simp_all

/-! ## Claim C4 -/

/-- C4: has_embedded_cover returns True iff the container holds art for the
file's format — a .flac file with at least one picture, an .mp3 file with at
least one APIC frame, or an .m4a file with a covr key, the extension taken
from the lowercased path — and it returns False for every other extension
and returns False rather than raising when reading the file throws. -/
theorem has_embedded_cover_format_dispatch
    (content : String → FileContent) (file_path : String) :
    (has_embedded_cover content file_path = true ↔
      ((content file_path).readError = false ∧
        ((pyEndsWith (pyLower file_path) ".flac" = true ∧
            0 < (content file_path).flacPictures) ∨
         (pyEndsWith (pyLower file_path) ".mp3" = true ∧
            0 < (content file_path).apicFrames) ∨
         (pyEndsWith (pyLower file_path) ".m4a" = true ∧
            (content file_path).hasCovr = true)))) ∧
    ((content file_path).readError = true →
      has_embedded_cover content file_path = false) ∧
    (pyEndsWith (pyLower file_path) ".flac" = false →
      pyEndsWith (pyLower file_path) ".mp3" = false →
      pyEndsWith (pyLower file_path) ".m4a" = false →
      has_embedded_cover content file_path = false) := by
  refine ⟨has_embedded_cover_iff content file_path, ?_, ?_⟩
  · intro hre
    cases hb : has_embedded_cover content file_path
    · rfl
    · have := (has_embedded_cover_iff content file_path).mp hb
      rw [hre] at this
      exact absurd this.1 (by decide)
  · intro hfl hmp hm4
    simp [has_embedded_cover, hfl, hmp, hm4]

/-- A FLAC container with one picture, used to exercise the claim-C4 theorem. -/
def exContent : String → FileContent := fun p =>
  if p = "Music/song.FLAC" then
    { readError := false, flacPictures := 1, apicFrames := 0, hasCovr := false }
  else
    { readError := true, flacPictures := 0, apicFrames := 0, hasCovr := false }

/-- Claim C4 instantiated on concrete files. -/
theorem has_embedded_cover_format_dispatch_witness :
    has_embedded_cover exContent "Music/song.FLAC" = true ∧
    has_embedded_cover exContent "Music/broken.mp3" = false ∧
    has_embedded_cover exContent "Music/notes.txt" = false :=
  ⟨(has_embedded_cover_format_dispatch exContent "Music/song.FLAC").1.mpr
      (by refine ⟨by decide, Or.inl ⟨by decide, by decide⟩⟩),
   (has_embedded_cover_format_dispatch exContent "Music/broken.mp3").2.1 (by decide),
   (has_embedded_cover_format_dispatch exContent "Music/notes.txt").2.2
      (by decide) (by decide) (by decide)⟩

/-! ## Claim C1 -/

/-- Metadata oracle exhibiting the underscore collision of the album key:
two files with distinct (artist, album) pairs whose concatenated keys agree. -/
def metaCollision : String → Option Metadata := fun p =>
  if p = "d/f1.mp3" then some { album := "c", artist := "a_b" }
  else if p = "d/f2.mp3" then some { album := "b_c", artist := "a" }
  else none

/-- C1 fails on the code: the grouping key of line 114 is the string
artist + "_" + album, which is not injective over (artist, album) pairs.
The files d/f1.mp3 (artist a_b, album c) and d/f2.mp3 (artist a, album b_c)
have distinct pairs, yet extract_album_info merges them into the single
group keyed a_b_c, contradicting the comment at line 113 that the key is
unique per album. -/
theorem extract_album_info_key_collision :
    metaCollision "d/f1.mp3" = some { album := "c", artist := "a_b" } ∧
    metaCollision "d/f2.mp3" = some { album := "b_c", artist := "a" } ∧
    (("a_b" : String), ("c" : String)) ≠ (("a" : String), ("b_c" : String)) ∧
    albumKey "a_b" "c" = albumKey "a" "b_c" ∧
    extract_album_info metaCollision ["d/f1.mp3", "d/f2.mp3"] =
      [("a_b_c",
        { artist := "a_b", album := "c", path := "d",
          files := ["d/f1.mp3", "d/f2.mp3"] })] := by
  refine ⟨by decide, by decide, by decide, by decide, by decide⟩

/-! ## Claim C9 -/

/-- The invariant every albums-dict entry keeps: truthy artist and album,
a non-empty insertion-ordered file list, and path equal to the directory of
the file that created the entry, which stays first in the list. -/
def entryInv (kv : String × AlbumData) : Prop :=
  kv.2.artist ≠ "" ∧ kv.2.album ≠ "" ∧
    ∃ f fs, kv.2.files = f :: fs ∧ kv.2.path = dirname f

/-- addAlbumFile preserves the entry invariant. -/
theorem addAlbumFile_inv (albums : List (String × AlbumData)) (m : Metadata)
    (file_path : String) (hal : m.album ≠ "") (har : m.artist ≠ "")
    (h : ∀ kv ∈ albums, entryInv kv) :
    ∀ kv ∈ addAlbumFile albums m file_path, entryInv kv := by
  intro kv hkv
  unfold addAlbumFile at hkv
  by_cases hfind :
      (albums.find? (fun kv => kv.1 == albumKey m.artist m.album)).isSome
  · rw [if_pos hfind] at hkv
    obtain ⟨kv₀, hkv₀, rfl⟩ := List.mem_map.mp hkv
    by_cases heq : kv₀.1 == albumKey m.artist m.album
    · obtain ⟨h₁, h₂, f, fs, hf, hp⟩ := h kv₀ hkv₀
      rw [if_pos heq]
      exact ⟨h₁, h₂, f, fs ++ [file_path], by simp [hf], hp⟩
    · rw [if_neg heq]
      exact h kv₀ hkv₀
  · rw [if_neg hfind] at hkv
    rcases List.mem_append.mp hkv with hmem | hmem
    · exact h kv hmem
    · rcases List.mem_singleton.mp hmem with rfl
      exact ⟨har, hal, file_path, [], rfl, rfl⟩

/-- extractStep preserves the entry invariant. -/
theorem extractStep_inv (meta : String → Option Metadata)
    (albums : List (String × AlbumData)) (file_path : String)
    (h : ∀ kv ∈ albums, entryInv kv) :
    ∀ kv ∈ extractStep meta albums file_path, entryInv kv := by
  cases hmeta : meta file_path with
  | none => simpa [extractStep, hmeta] using h
  | some m =>
    by_cases hm : m.album ≠ "" ∧ m.artist ≠ ""
    · simpa [extractStep, hmeta, hm] using
        addAlbumFile_inv albums m file_path hm.1 hm.2 h
    · simpa [extractStep, hmeta, hm] using h

/-- The fold of extract_album_info preserves the entry invariant. -/
theorem extract_foldl_inv (meta : String → Option Metadata) :
    ∀ (l : List String) (albums : List (String × AlbumData)),
      (∀ kv ∈ albums, entryInv kv) →
      ∀ kv ∈ l.foldl (extractStep meta) albums, entryInv kv := by
  intro l
  induction l with
  | nil => intro albums h; simpa using h
  | cons fp rest ih =>
    intro albums h
    rw [List.foldl_cons]
    exact ih (extractStep meta albums fp) (extractStep_inv meta albums fp h)

/-- C9: every entry produced by extract_album_info has a non-empty artist,
a non-empty album, a non-empty files list, and a path equal to the directory
of the first file in its files list — later files of the group never change
path even when they live elsewhere. -/
theorem extract_album_info_entries_invariant (meta : String → Option Metadata)
    (audio_files : List String) (kv : String × AlbumData)
    (h : kv ∈ extract_album_info meta audio_files) :
    kv.2.artist ≠ "" ∧ kv.2.album ≠ "" ∧
      ∃ f fs, kv.2.files = f :: fs ∧ kv.2.path = dirname f :=
  extract_foldl_inv meta audio_files [] (by simp) kv h

/-- Metadata oracle for the claim-C9 witness: a two-directory album. -/
def metaTwoDirs : String → Option Metadata := fun p =>
  if p = "m/cd1/t1.flac" ∨ p = "m/cd2/t2.flac" then
    some { album := "LP", artist := "Band" }
  else none

/-- Claim C9 instantiated: the group spans two directories and keeps the
first file's directory as its path. -/
theorem extract_album_info_entries_invariant_witness :
    (("Band_LP",
      ({ artist := "Band", album := "LP", path := "m/cd1",
         files := ["m/cd1/t1.flac", "m/cd2/t2.flac"] } : AlbumData)) :
        String × AlbumData).2.artist ≠ "" ∧
    (("Band_LP",
      ({ artist := "Band", album := "LP", path := "m/cd1",
         files := ["m/cd1/t1.flac", "m/cd2/t2.flac"] } : AlbumData)) :
        String × AlbumData).2.album ≠ "" ∧
    ∃ f fs,
      (("Band_LP",
        ({ artist := "Band", album := "LP", path := "m/cd1",
           files := ["m/cd1/t1.flac", "m/cd2/t2.flac"] } : AlbumData)) :
          String × AlbumData).2.files = f :: fs ∧
      (("Band_LP",
        ({ artist := "Band", album := "LP", path := "m/cd1",
           files := ["m/cd1/t1.flac", "m/cd2/t2.flac"] } : AlbumData)) :
          String × AlbumData).2.path = dirname f :=
  extract_album_info_entries_invariant metaTwoDirs
    ["m/cd1/t1.flac", "m/cd2/t2.flac"] _ (by decide)

/-! ## Claim C7 -/

/-- Unfolding one os.walk entry of find_audio_files. -/
theorem find_audio_files_cons (rf : String × List String)
    (rest : List (String × List String)) (audio_files : List String) :
    find_audio_files (rf :: rest) audio_files =
      find_audio_files rest
        (audio_files ++
          (rf.2.filter (fun file => endsWithAudioExt (pyLower file))).map
            (fun file => osPathJoin rf.1 file)) := rfl

/-- find_audio_files only appends: the prior audio_files stay in front. -/
theorem find_audio_files_init (walk : List (String × List String)) :
    ∀ audio_files, find_audio_files walk audio_files =
      audio_files ++ find_audio_files walk [] := by
  induction walk with
  | nil => intro a; simp [find_audio_files]
  | cons rf rest ih =>
    intro a
    rw [find_audio_files_cons, find_audio_files_cons, ih, List.nil_append,
      ih ((rf.2.filter (fun file => endsWithAudioExt (pyLower file))).map
        (fun file => osPathJoin rf.1 file)), List.append_assoc]

/-- Membership in the discovered files. -/
theorem mem_find_audio_files (walk : List (String × List String)) (p : String) :
    p ∈ find_audio_files walk [] ↔
      ∃ root files file, (root, files) ∈ walk ∧ file ∈ files ∧
        endsWithAudioExt (pyLower file) = true ∧ p = osPathJoin root file := by
  induction walk with
  | nil => simp [find_audio_files]
  | cons rf rest ih =>
    rw [find_audio_files_cons, find_audio_files_init, List.nil_append]
    constructor
    · intro hp
      rcases List.mem_append.mp hp with hnew | hrest
      · obtain ⟨file, hfile, rfl⟩ := List.mem_map.mp hnew
        exact ⟨rf.1, rf.2, file, List.mem_cons_self rf rest,
          (List.mem_filter.mp hfile).1, (List.mem_filter.mp hfile).2, rfl⟩
      · obtain ⟨root, files, file, hmem, h2, h3, h4⟩ := ih.mp hrest
        exact ⟨root, files, file, List.mem_cons_of_mem rf hmem, h2, h3, h4⟩
    · rintro ⟨root, files, file, hmem, h2, h3, rfl⟩
      rcases List.mem_cons.mp hmem with heq | hmem
      · subst heq
        exact List.mem_append.mpr
          (Or.inl (List.mem_map.mpr ⟨file, List.mem_filter.mpr ⟨h2, h3⟩, rfl⟩))
      · exact List.mem_append.mpr (Or.inr (ih.mpr ⟨root, files, file, hmem, h2, h3, rfl⟩))

/-- C7: find_audio_files appends to the running audio_files list exactly the
files under the walked tree whose lowercased name ends in .flac, .mp3 or
.m4a, and no others. -/
theorem find_audio_files_exactly_audio (walk : List (String × List String))
    (audio_files : List String) (p : String) :
    (find_audio_files walk audio_files =
      audio_files ++ find_audio_files walk []) ∧
    (p ∈ find_audio_files walk [] ↔
      ∃ root files file, (root, files) ∈ walk ∧ file ∈ files ∧
        endsWithAudioExt (pyLower file) = true ∧ p = osPathJoin root file) :=
  ⟨find_audio_files_init walk audio_files, mem_find_audio_files walk p⟩

/-- A concrete os.walk result exercising the claim-C7 theorem. -/
def exWalk : List (String × List String) :=
  [("m", ["a.mp3", "readme.txt"]), ("m/sub", ["b.FLAC", "c.ogg"])]

/-- Claim C7 instantiated on a concrete walk. -/
theorem find_audio_files_exactly_audio_witness :
    find_audio_files exWalk ["old.mp3"] = ["old.mp3"] ++ find_audio_files exWalk [] ∧
    "m/sub/b.FLAC" ∈ find_audio_files exWalk [] :=
  ⟨(find_audio_files_exactly_audio exWalk ["old.mp3"] "m/sub/b.FLAC").1,
   (find_audio_files_exactly_audio exWalk ["old.mp3"] "m/sub/b.FLAC").2.mpr
     ⟨"m/sub", ["b.FLAC", "c.ogg"], "b.FLAC", by decide, by decide, by decide,
       by decide⟩⟩

/-! ## Claim C3 -/

/-- The probe loop returns the first existing candidate, as a find?. -/
theorem findCoverLoop_eq_find? (path_exists : String → Bool) (folder_path : String) :
    ∀ names : List String,
      findCoverLoop path_exists folder_path names =
        (names.find? (fun filename =>
          path_exists (osPathJoin folder_path filename))).map
          (fun filename => osPathJoin folder_path filename) := by
  intro names
  induction names with
  | nil => rfl
  | cons n rest ih =>
    by_cases hx : path_exists (osPathJoin folder_path n)
    · simp [findCoverLoop, List.find?_cons, hx]
    · simp [findCoverLoop, List.find?_cons, hx, ih]

/-- With an existing cover the per-album body is a single album_found. -/
theorem handleAlbum_existing (env : Env) (d : AlbumData) (p : String)
    (h : find_existing_cover env.path_exists d.path = some p) :
    handleAlbum env d =
      [Event.albumFound d.artist d.album p false
        (find_files_with_embedded_covers env.content d.files)] := by
  simp [handleAlbum, h]

/-- Events of an album's handler occur in the run loop's output. -/
theorem mem_runAlbums_of_mem_handle (env : Env) (total : Nat) (e : Event) :
    ∀ (albums : List (String × AlbumData)) (processed : Nat)
      (kv : String × AlbumData), kv ∈ albums → e ∈ handleAlbum env kv.2 →
      e ∈ runAlbums env total processed albums := by
  intro albums
  induction albums with
  | nil => intro _ kv h; cases h
  | cons kv₀ rest ih =>
    intro processed kv hkv he
    rcases List.mem_cons.mp hkv with rfl | hmem
    · exact List.mem_append.mpr (Or.inl he)
    · exact List.mem_append.mpr
        (Or.inr (List.mem_cons_of_mem _ (ih (processed + 1) kv hmem he)))

/-- run unfolded to the album loop plus the finished emission. -/
theorem run_eq (env : Env) :
    run env = runAlbums env (pipelineAlbums env).length 0 (pipelineAlbums env) ++
      [Event.finishedSignal] := rfl

/-- C3: if a candidate cover file exists in the album folder,
find_existing_cover returns the first existing candidate in the fixed
filename order; the album is then reported with that path and is_new =
False, with no Deezer query and no selection dialog; if no candidate
exists, find_existing_cover returns none. -/
theorem find_existing_cover_first_match (path_exists : String → Bool)
    (folder_path : String) (env : Env) (d : AlbumData)
    (kv : String × AlbumData) (p : String) :
    (find_existing_cover path_exists folder_path =
      (cover_filenames.find? (fun filename =>
        path_exists (osPathJoin folder_path filename))).map
        (fun filename => osPathJoin folder_path filename)) ∧
    ((∀ filename ∈ cover_filenames,
        path_exists (osPathJoin folder_path filename) = false) →
      find_existing_cover path_exists folder_path = none) ∧
    (find_existing_cover env.path_exists d.path = some p →
      handleAlbum env d =
        [Event.albumFound d.artist d.album p false
          (find_files_with_embedded_covers env.content d.files)] ∧
      (handleAlbum env d).countP Event.isDeezerSearch = 0 ∧
      (handleAlbum env d).countP Event.isCoverSelectionNeeded = 0) ∧
    (kv ∈ pipelineAlbums env →
      find_existing_cover env.path_exists kv.2.path = some p →
      Event.albumFound kv.2.artist kv.2.album p false
        (find_files_with_embedded_covers env.content kv.2.files) ∈ run env) := by
  refine ⟨findCoverLoop_eq_find? path_exists folder_path cover_filenames, ?_, ?_, ?_⟩
  · intro hall
    rw [find_existing_cover, findCoverLoop_eq_find? path_exists folder_path,
      List.find?_eq_none.mpr (fun x hx => by rw [hall x hx]; exact Bool.false_ne_true)]
    rfl
  · intro h
    rw [handleAlbum_existing env d p h]
    exact ⟨rfl, rfl, rfl⟩
  · intro hkv h
    rw [run_eq]
    refine List.mem_append.mpr (Or.inl ?_)
    refine mem_runAlbums_of_mem_handle env _ _ _ 0 kv hkv ?_
    rw [handleAlbum_existing env kv.2 p h]
    exact List.mem_singleton.mpr rfl

/-- A concrete environment with an existing cover file for its one album. -/
def exEnvC3 : Env :=
  { walk := [("al", ["t.mp3"])]
    get_audio_metadata := fun q =>
      if q = "al/t.mp3" then some { album := "A", artist := "X" } else none
    path_exists := fun q => q == "al/cover.png" || q == "al/front.jpg"
    content := fun _ =>
      { readError := false, flacPictures := 0, apicFrames := 0, hasCovr := false }
    search := fun _ _ => DeezerResponse.error
    ui_polls := fun _ _ => 0
    ui_result := fun _ _ => none }

/-- The one album group of exEnvC3. -/
def exAlbumC3 : AlbumData :=
  { artist := "X", album := "A", path := "al", files := ["al/t.mp3"] }

/-- Claim C3 instantiated: cover.png beats front.jpg in probe order and the
album is emitted with the existing cover. -/
theorem find_existing_cover_first_match_witness :
    handleAlbum exEnvC3 exAlbumC3 =
      [Event.albumFound "X" "A" "al/cover.png" false []] ∧
    Event.albumFound "X" "A" "al/cover.png" false [] ∈ run exEnvC3 :=
  ⟨((find_existing_cover_first_match exEnvC3.path_exists "al" exEnvC3 exAlbumC3
      ("X_A", exAlbumC3) "al/cover.png").2.2.1 (by decide)).1,
   (find_existing_cover_first_match exEnvC3.path_exists "al" exEnvC3 exAlbumC3
      ("X_A", exAlbumC3) "al/cover.png").2.2.2 (by decide) (by decide)⟩

/-! ## Claim C6 -/

/-- The enumerate-with-break loop collects a take of the data list. -/
theorem collectCovers_eq_take (max_results : Nat) :
    ∀ (data : List DeezerAlbum) (i : Nat),
      collectCovers max_results i data =
        (data.take (max_results - i)).map coverOfAlbum := by
  intro data
  induction data with
  | nil => intro i; simp [collectCovers]
  | cons a rest ih =>
    intro i
    by_cases hi : max_results ≤ i
    · simp [collectCovers, hi, Nat.sub_eq_zero_of_le hi]
    · have hs : max_results - i = (max_results - (i + 1)) + 1 := by omega
      simp [collectCovers, hi, hs, ih (i + 1)]

/-- C6: get_album_covers returns at most max_results entries, built from
the response's data entries in order via coverOfAlbum (the url, album_title
and artist_name keys), and returns the empty list when the request raises
or the response carries no data entries. -/
theorem get_album_covers_bounds (search : String → String → DeezerResponse)
    (artist album : String) (max_results : Nat) :
    ((get_album_covers search artist album max_results).length ≤ max_results) ∧
    (search artist album = DeezerResponse.error →
      get_album_covers search artist album max_results = []) ∧
    (search artist album = DeezerResponse.response none →
      get_album_covers search artist album max_results = []) ∧
    (∀ data, search artist album = DeezerResponse.response (some data) →
      get_album_covers search artist album max_results =
        (data.take max_results).map coverOfAlbum) := by
  have hmain : ∀ data, search artist album = DeezerResponse.response (some data) →
      get_album_covers search artist album max_results =
        (data.take max_results).map coverOfAlbum := by
    intro data h
    simp only [get_album_covers, h]
    by_cases hd : data.isEmpty
    · rw [if_pos hd, List.isEmpty_iff.mp hd]
      simp
    · rw [if_neg hd, collectCovers_eq_take max_results data 0, Nat.sub_zero]
  refine ⟨?_, ?_, ?_, hmain⟩
  · cases hs : search artist album with
    | error => simp [get_album_covers, hs]
    | response data =>
      cases data with
      | none => simp [get_album_covers, hs]
      | some l =>
        rw [hmain l hs, List.length_map, List.length_take]
        exact Nat.min_le_left _ _
  · intro h; rw [get_album_covers, h]
  · intro h; rw [get_album_covers, h]

/-- A concrete Deezer oracle with three results for one query. -/
def exSearch : String → String → DeezerResponse := fun artist album =>
  if artist = "X" ∧ album = "A" then
    DeezerResponse.response (some
      [{ cover_big := "u1", title := "t1", artist_name := "n1" },
       { cover_big := "u2", title := "t2", artist_name := "n2" },
       { cover_big := "u3", title := "t3", artist_name := "n3" }])
  else DeezerResponse.error

/-- Claim C6 instantiated: three hits truncated to max_results = 2, and the
error path yielding the empty list. -/
theorem get_album_covers_bounds_witness :
    get_album_covers exSearch "X" "A" 2 =
      (([{ cover_big := "u1", title := "t1", artist_name := "n1" },
         { cover_big := "u2", title := "t2", artist_name := "n2" },
         { cover_big := "u3", title := "t3", artist_name := "n3" }] :
           List DeezerAlbum).take 2).map coverOfAlbum ∧
    get_album_covers exSearch "Y" "B" 2 = [] :=
  ⟨(get_album_covers_bounds exSearch "X" "A" 2).2.2.2 _ (by decide),
   (get_album_covers_bounds exSearch "Y" "B" 2).2.1 (by decide)⟩

/-! ## Claim C10 -/

/-- C10: save_album_cover writes the downloaded bytes to the fixed filename
cover.jpg inside the folder and returns that path, whatever the bytes are;
on a failed download or write it returns none. -/
theorem save_album_cover_fixed_name (download : String → Option String)
    (write_ok : String → Bool) (url folder_path : String) :
    (∀ image_data, download url = some image_data →
      write_ok (osPathJoin folder_path "cover.jpg") = true →
      save_album_cover download write_ok url folder_path =
        (some (osPathJoin folder_path "cover.jpg"),
         [(osPathJoin folder_path "cover.jpg", image_data)])) ∧
    (download url = none →
      save_album_cover download write_ok url folder_path = (none, [])) ∧
    (write_ok (osPathJoin folder_path "cover.jpg") = false →
      (save_album_cover download write_ok url folder_path).1 = none) := by
  refine ⟨?_, ?_, ?_⟩
  · intro image_data hdl hwr
    rw [save_album_cover, hdl]
    simp [hwr]
  · intro hdl
    rw [save_album_cover, hdl]
  · intro hwr
    rw [save_album_cover]
    cases download url with
    | none => rfl
    | some image_data => simp [hwr]

/-- A concrete downloader returning PNG-looking bytes. -/
def exDownload : String → Option String := fun u =>
  if u = "http://img/big" then some "PNGBYTES" else none

/-- Claim C10 instantiated: PNG bytes still land in cover.jpg, and an
unknown URL (failed request) yields none. -/
theorem save_album_cover_fixed_name_witness :
    save_album_cover exDownload (fun _ => true) "http://img/big" "al" =
      (some (osPathJoin "al" "cover.jpg"),
       [(osPathJoin "al" "cover.jpg", "PNGBYTES")]) ∧
    save_album_cover exDownload (fun _ => true) "http://img/missing" "al" =
      (none, []) :=
  ⟨(save_album_cover_fixed_name exDownload (fun _ => true) "http://img/big"
      "al").1 "PNGBYTES" (by decide) rfl,
   (save_album_cover_fixed_name exDownload (fun _ => true) "http://img/missing"
      "al").2.1 (by decide)⟩

/-! ## Claim C5 -/

/-- A filter has positive length exactly when some member satisfies it. -/
theorem filter_length_pos_iff {α : Type} (l : List α) (p : α → Bool) :
    0 < (l.filter p).length ↔ ∃ a ∈ l, p a = true := by
  induction l with
  | nil => simp
  | cons a rest ih =>
    by_cases hp : p a <;> simp [List.filter_cons, hp, ih]

/-- C5: with an empty or missing cover path, embed_cover_to_files reports
failure without touching any audio file; when every file embeds, it reports
success naming the count; when some files fail, its boolean is True iff at
least one file succeeded and its message lists at most the first 5 failed
basenames. -/
theorem embed_cover_to_files_results (env : EmbedEnv) (cover_path : String)
    (audio_files : List String) :
    ((cover_path = "" ∨ env.path_exists cover_path = false) →
      embed_cover_to_files env cover_path audio_files =
        ((false, "Cover file does not exist"), [])) ∧
    (cover_path ≠ "" → env.path_exists cover_path = true →
      env.read_ok cover_path = true →
      (((∀ f ∈ audio_files, env.embed_ok f = true) →
        embed_cover_to_files env cover_path audio_files =
          ((true, "Successfully embedded cover in all " ++
              toString audio_files.length ++ " files"),
           audio_files.filter (fun f => endsWithAudioExt (pyLower f)))) ∧
      ((∃ f ∈ audio_files, env.embed_ok f = false) →
        ((embed_cover_to_files env cover_path audio_files).1.1 = true ↔
          ∃ f ∈ audio_files, env.embed_ok f = true) ∧
        (embed_cover_to_files env cover_path audio_files).1.2 =
          "Embedded cover in " ++
            toString (audio_files.filter (fun f => env.embed_ok f)).length ++
            " files. Failed for " ++
            toString ((audio_files.filter (fun f => !(env.embed_ok f))).map
              basename).length ++
            " files: " ++
            String.intercalate ", "
              (((audio_files.filter (fun f => !(env.embed_ok f))).map
                basename).take 5) ++
            (if 5 < ((audio_files.filter (fun f => !(env.embed_ok f))).map
                basename).length
             then "..." else "") ∧
        ((((audio_files.filter (fun f => !(env.embed_ok f))).map
            basename).take 5).length ≤ 5)))) := by
  constructor
  · intro h
    rw [embed_cover_to_files, if_pos h]
  · intro h1 h2 h3
    have hcond : ¬(cover_path = "" ∨ env.path_exists cover_path = false) := by
      simp [h1, h2]
    have hread : ¬(env.read_ok cover_path = false) := by simp [h3]
    constructor
    · intro hall
      have hfail : audio_files.filter (fun f => !(env.embed_ok f)) = [] := by
        have : audio_files.filter (fun f => !(env.embed_ok f)) =
            audio_files.filter (fun _ => false) :=
          List.filter_congr (fun a ha => by rw [hall a ha]; rfl)
        rw [this, List.filter_false]
      have hsucc : audio_files.filter (fun f => env.embed_ok f) = audio_files :=
        List.filter_eq_self.mpr hall
      have hmod : audio_files.filter
          (fun f => endsWithAudioExt (pyLower f) && env.embed_ok f) =
          audio_files.filter (fun f => endsWithAudioExt (pyLower f)) :=
        List.filter_congr (fun a ha => by rw [hall a ha, Bool.and_true])
      simp only [embed_cover_to_files, if_neg hcond, if_neg hread, hfail,
        hsucc, hmod, List.map_nil, List.isEmpty_nil, if_true]
    · rintro ⟨f0, hf0mem, hf0⟩
      have hmem : f0 ∈ audio_files.filter (fun f => !(env.embed_ok f)) :=
        List.mem_filter.mpr ⟨hf0mem, by rw [hf0]; rfl⟩
      have hne : (audio_files.filter (fun f => !(env.embed_ok f))).map basename
          ≠ [] :=
        List.ne_nil_of_mem (List.mem_map_of_mem basename hmem)
      have hifE : ((audio_files.filter (fun f => !(env.embed_ok f))).map
          basename).isEmpty = false := by
        cases hie : ((audio_files.filter (fun f => !(env.embed_ok f))).map
            basename).isEmpty with
        | false => rfl
        | true => exact absurd (List.isEmpty_iff.mp hie) hne
      refine ⟨?_, ?_, List.length_take_le 5 _⟩
      · simp only [embed_cover_to_files, if_neg hcond, if_neg hread, hifE,
          Bool.false_eq_true, if_false, decide_eq_true_eq]
        exact filter_length_pos_iff audio_files (fun f => env.embed_ok f)
      · simp only [embed_cover_to_files, if_neg hcond, if_neg hread, hifE,
          Bool.false_eq_true, if_false]

/-- Oracles for the claim-C5 witness: the cover exists and reads fine; one
of the two audio files embeds, the other raises. -/
def exEmbedEnv : EmbedEnv :=
  { path_exists := fun q => q == "al/cover.jpg"
    read_ok := fun _ => true
    read_err_msg := ""
    embed_ok := fun f => f == "al/a.mp3" }

/-- Claim C5 instantiated: missing cover is rejected without writes, and a
partial failure still reports overall success. -/
theorem embed_cover_to_files_results_witness :
    embed_cover_to_files exEmbedEnv "" ["al/a.mp3"] =
      ((false, "Cover file does not exist"), []) ∧
    (embed_cover_to_files exEmbedEnv "al/cover.jpg"
      ["al/a.mp3", "al/b.flac"]).1.1 = true :=
  ⟨(embed_cover_to_files_results exEmbedEnv "" ["al/a.mp3"]).1 (Or.inl rfl),
   ((((embed_cover_to_files_results exEmbedEnv "al/cover.jpg"
        ["al/a.mp3", "al/b.flac"]).2 (by decide) (by decide) (by decide)).2
      ⟨"al/b.flac", by decide, by decide⟩).1).mpr
     ⟨"al/a.mp3", by decide, by decide⟩⟩

/-! ## Claims C2 and C8: the run loop -/

/-- Wait-loop events are only processEvents and 100 ms sleeps. -/
theorem waitLoopEvents_forall (q : Event → Bool)
    (hpe : q Event.processEvents = false) (hsl : q (Event.sleep 100) = false) :
    ∀ n, ∀ e ∈ waitLoopEvents n, q e = false := by
  intro n
  induction n with
  | zero => intro e he; cases he
  | succ k ih =>
    intro e he
    rcases List.mem_cons.mp he with rfl | he
    · exact hpe
    · rcases List.mem_cons.mp he with rfl | he
      · exact hsl
      · exact ih e he

/-- Every event an album handler can produce is one of the five shapes it
emits, so a predicate rejecting all of them counts nothing. -/
theorem handleAlbum_forall (env : Env) (d : AlbumData) (q : Event → Bool)
    (hpe : q Event.processEvents = false) (hsl : q (Event.sleep 100) = false)
    (hds : ∀ a b, q (Event.deezerSearch a b) = false)
    (hcs : ∀ a b c l, q (Event.coverSelectionNeeded a b c l) = false)
    (haf : ∀ a b c n l, q (Event.albumFound a b c n l) = false) :
    ∀ e ∈ handleAlbum env d, q e = false := by
  intro e he
  cases hex : find_existing_cover env.path_exists d.path with
  | some cover =>
    rw [handleAlbum_existing env d cover hex] at he
    rcases List.mem_singleton.mp he with rfl
    exact haf _ _ _ _ _
  | none =>
    simp only [handleAlbum, hex] at he
    rcases List.mem_cons.mp he with rfl | he
    · exact hds _ _
    · by_cases hemp : (get_album_covers env.search d.artist d.album 4).isEmpty
      · rw [if_pos hemp] at he
        rcases List.mem_singleton.mp he with rfl
        exact haf _ _ _ _ _
      · rw [if_neg hemp] at he
        rcases List.mem_cons.mp he with rfl | he
        · exact hcs _ _ _ _
        · rcases List.mem_append.mp he with he | he
          · exact waitLoopEvents_forall q hpe hsl _ e he
          · by_cases htr : pyTruthyStr (env.ui_result d.artist d.album)
            · rw [if_pos htr] at he
              rcases List.mem_singleton.mp he with rfl
              exact haf _ _ _ _ _
            · rw [if_neg htr] at he
              rcases List.mem_singleton.mp he with rfl
              exact haf _ _ _ _ _

/-- countP form of handleAlbum_forall. -/
theorem handleAlbum_countP_zero (env : Env) (d : AlbumData) (q : Event → Bool)
    (hpe : q Event.processEvents = false) (hsl : q (Event.sleep 100) = false)
    (hds : ∀ a b, q (Event.deezerSearch a b) = false)
    (hcs : ∀ a b c l, q (Event.coverSelectionNeeded a b c l) = false)
    (haf : ∀ a b c n l, q (Event.albumFound a b c n l) = false) :
    (handleAlbum env d).countP q = 0 :=
  List.countP_eq_zero.mpr (fun e he => by
    simp [handleAlbum_forall env d q hpe hsl hds hcs haf e he])

/-- Each album handler emits album_found exactly once. -/
theorem handleAlbum_countP_one (env : Env) (d : AlbumData) :
    (handleAlbum env d).countP Event.isAlbumFound = 1 := by
  have hwZero : ∀ n, (waitLoopEvents n).countP Event.isAlbumFound = 0 :=
    fun n => List.countP_eq_zero.mpr (fun e he => by
      simp [waitLoopEvents_forall Event.isAlbumFound rfl rfl n e he])
  cases hex : find_existing_cover env.path_exists d.path with
  | some cover => simp [handleAlbum_existing env d cover hex,
      List.countP_cons, Event.isAlbumFound]
  | none =>
    by_cases hemp : (get_album_covers env.search d.artist d.album 4).isEmpty
    · simp [handleAlbum, hex, hemp, List.countP_cons, Event.isAlbumFound]
    · by_cases htr : pyTruthyStr (env.ui_result d.artist d.album) <;>
        simp [handleAlbum, hex, hemp, htr, List.countP_cons,
          List.countP_append, Event.isAlbumFound, hwZero]

/-- The run loop laid out flat: each album's handler followed by its
progress emission, with the counter enumerating from the initial
albums_processed value. -/
theorem runAlbums_shape (env : Env) (total : Nat) :
    ∀ (albums : List (String × AlbumData)) (processed : Nat),
      runAlbums env total processed albums =
        ((List.enumFrom processed albums).map
          (fun p => handleAlbum env p.2.2 ++
            [Event.progress (p.1 + 1) total])).flatten := by
  intro albums
  induction albums with
  | nil => intro processed; rfl
  | cons kv rest ih =>
    intro processed
    show handleAlbum env kv.2 ++ (Event.progress (processed + 1) total ::
      runAlbums env total (processed + 1) rest) = _
    rw [ih (processed + 1)]
    show _ = (handleAlbum env kv.2 ++ [Event.progress (processed + 1) total]) ++ _
    simp [List.append_assoc]

/-- The run loop emits one album_found per album. -/
theorem runAlbums_countP_albumFound (env : Env) (total : Nat) :
    ∀ (albums : List (String × AlbumData)) (processed : Nat),
      (runAlbums env total processed albums).countP Event.isAlbumFound =
        albums.length := by
  intro albums
  induction albums with
  | nil => intro processed; rfl
  | cons kv rest ih =>
    intro processed
    simp [runAlbums, List.countP_append, List.countP_cons,
      handleAlbum_countP_one, ih (processed + 1), Event.isAlbumFound,
      Nat.add_comm]

/-- The run loop itself never emits finished. -/
theorem runAlbums_countP_finished (env : Env) (total : Nat) :
    ∀ (albums : List (String × AlbumData)) (processed : Nat),
      (runAlbums env total processed albums).countP Event.isFinishedSignal = 0 := by
  intro albums
  induction albums with
  | nil => intro processed; rfl
  | cons kv rest ih =>
    intro processed
    simp [runAlbums, List.countP_append, List.countP_cons,
      handleAlbum_countP_zero env kv.2 Event.isFinishedSignal rfl rfl
        (fun _ _ => rfl) (fun _ _ _ _ => rfl) (fun _ _ _ _ _ => rfl),
      ih (processed + 1), Event.isFinishedSignal]

/-- The progress emissions of the run loop: counters ascending one past the
initial albums_processed value, one per album, each with the fixed total. -/
theorem runAlbums_filter_progress (env : Env) (total : Nat) :
    ∀ (albums : List (String × AlbumData)) (processed : Nat),
      (runAlbums env total processed albums).filter Event.isProgress =
        (List.range albums.length).map
          (fun k => Event.progress (processed + k + 1) total) := by
  intro albums
  induction albums with
  | nil => intro processed; rfl
  | cons kv rest ih =>
    intro processed
    have hnil : (handleAlbum env kv.2).filter Event.isProgress = [] :=
      List.filter_eq_nil_iff.mpr (fun e he => by
        simp [handleAlbum_forall env kv.2 Event.isProgress rfl rfl
          (fun _ _ => rfl) (fun _ _ _ _ => rfl) (fun _ _ _ _ _ => rfl) e he])
    have hp : Event.isProgress (Event.progress (processed + 1) total) = true := rfl
    show (handleAlbum env kv.2 ++ (Event.progress (processed + 1) total ::
      runAlbums env total (processed + 1) rest)).filter Event.isProgress = _
    rw [List.filter_append, hnil, List.nil_append, List.filter_cons, hp,
      if_pos rfl, ih (processed + 1), List.length_cons,
      List.range_succ_eq_map, List.map_cons, List.map_map]
    congr 1
    apply List.map_congr_left
    intro k _
    have h : processed + 1 + k + 1 = processed + (k + 1) + 1 := by omega
    simp [Function.comp, h]

/-- C2: run discovers files, groups them, then handles each album group
exactly once in dict order, emitting progress_updated with counters 1..n
(n the number of albums, one emission right after each album's handling),
exactly one album_found per album, and finished exactly once, at the end. -/
theorem run_pipeline_order (env : Env) :
    (pipelineAlbums env =
      extract_album_info env.get_audio_metadata (find_audio_files env.walk [])) ∧
    (run env =
      ((List.enumFrom 0 (pipelineAlbums env)).map
        (fun p => handleAlbum env p.2.2 ++
          [Event.progress (p.1 + 1) (pipelineAlbums env).length])).flatten ++
        [Event.finishedSignal]) ∧
    (∀ kv ∈ pipelineAlbums env,
      (handleAlbum env kv.2).countP Event.isAlbumFound = 1) ∧
    ((run env).countP Event.isAlbumFound = (pipelineAlbums env).length) ∧
    ((run env).filter Event.isProgress =
      (List.range (pipelineAlbums env).length).map
        (fun k => Event.progress (k + 1) (pipelineAlbums env).length)) ∧
    ((run env).countP Event.isFinishedSignal = 1) ∧
    ((run env).getLast? = some Event.finishedSignal) := by
  refine ⟨rfl, ?_, ?_, ?_, ?_, ?_, ?_⟩
  · rw [run_eq, runAlbums_shape]
  · intro kv _
    exact handleAlbum_countP_one env kv.2
  · rw [run_eq, List.countP_append, runAlbums_countP_albumFound]
    simp [List.countP_cons, Event.isAlbumFound]
  · rw [run_eq, List.filter_append, runAlbums_filter_progress]
    simp [List.filter_cons, Event.isProgress, Nat.zero_add]
  · rw [run_eq, List.countP_append, runAlbums_countP_finished]
    simp [List.countP_cons, Event.isFinishedSignal]
  · rw [run_eq]
    exact List.getLast?_concat _

/-- A two-album environment exercising the claim-C2 theorem. -/
def exEnvC2 : Env :=
  { walk := [("m", ["t1.mp3", "t2.flac", "readme.txt"])]
    get_audio_metadata := fun q =>
      if q = "m/t1.mp3" then some { album := "A", artist := "X" }
      else if q = "m/t2.flac" then some { album := "B", artist := "Y" }
      else none
    path_exists := fun q => q == "m/cover.jpg"
    content := fun _ =>
      { readError := false, flacPictures := 0, apicFrames := 0, hasCovr := false }
    search := fun _ _ => DeezerResponse.error
    ui_polls := fun _ _ => 0
    ui_result := fun _ _ => none }

/-- Claim C2 instantiated: the second of the two album groups also emits
album_found exactly once. -/
theorem run_pipeline_order_witness :
    (handleAlbum exEnvC2
      ({ artist := "Y", album := "B", path := "m",
         files := ["m/t2.flac"] } : AlbumData)).countP Event.isAlbumFound = 1 :=
  (run_pipeline_order exEnvC2).2.2.1
    ("Y_B", { artist := "Y", album := "B", path := "m", files := ["m/t2.flac"] })
    (by decide)

/-- C8: with no existing cover and a non-empty Deezer result, the handler
emits cover_selection_needed, then only processEvents/msleep(100) pairs for
as long as the UI thread leaves waiting_for_selection set — no album_found
during the wait — and after the flag is cleared emits album_found with the
saved path and is_new = True when a cover was chosen, or with an empty path
and is_new = False otherwise. -/
theorem run_waits_for_selection (env : Env) (d : AlbumData)
    (hno : find_existing_cover env.path_exists d.path = none)
    (hcov : (get_album_covers env.search d.artist d.album 4).isEmpty = false) :
    (handleAlbum env d =
      Event.deezerSearch d.artist d.album ::
        Event.coverSelectionNeeded d.artist d.album d.path
          (get_album_covers env.search d.artist d.album 4) ::
          (waitLoopEvents (env.ui_polls d.artist d.album) ++
            [if pyTruthyStr (env.ui_result d.artist d.album) = true then
              Event.albumFound d.artist d.album
                ((env.ui_result d.artist d.album).getD "") true
                (find_files_with_embedded_covers env.content d.files)
            else
              Event.albumFound d.artist d.album "" false
                (find_files_with_embedded_covers env.content d.files)])) ∧
    (∀ n, (waitLoopEvents n).countP Event.isAlbumFound = 0) ∧
    (∀ n, waitLoopEvents n =
      (List.replicate n [Event.processEvents, Event.sleep 100]).flatten) := by
  refine ⟨?_, ?_, ?_⟩
  · by_cases htr : pyTruthyStr (env.ui_result d.artist d.album) <;>
      simp [handleAlbum, hno, hcov, htr]
  · intro n
    exact List.countP_eq_zero.mpr (fun e he => by
      simp [waitLoopEvents_forall Event.isAlbumFound rfl rfl n e he])
  · intro n
    induction n with
    | zero => rfl
    | succ k ih => simp [waitLoopEvents, List.replicate_succ, ih]

/-- An environment whose one album needs a selection dialog: no cover file,
one Deezer hit, two wait-loop polls, and a saved selection. -/
def exEnvC8 : Env :=
  { walk := [("al2", ["s.m4a"])]
    get_audio_metadata := fun q =>
      if q = "al2/s.m4a" then some { album := "B", artist := "Y" } else none
    path_exists := fun _ => false
    content := fun _ =>
      { readError := false, flacPictures := 0, apicFrames := 0, hasCovr := false }
    search := fun _ _ => DeezerResponse.response (some
      [{ cover_big := "u", title := "t", artist_name := "n" }])
    ui_polls := fun _ _ => 2
    ui_result := fun _ _ => some "al2/cover.jpg" }

/-- The one album group of exEnvC8. -/
def exAlbumC8 : AlbumData :=
  { artist := "Y", album := "B", path := "al2", files := ["al2/s.m4a"] }

/-- Claim C8 instantiated: two poll iterations precede the album_found that
carries the saved path with is_new = True. -/
theorem run_waits_for_selection_witness :
    handleAlbum exEnvC8 exAlbumC8 =
      [Event.deezerSearch "Y" "B",
       Event.coverSelectionNeeded "Y" "B" "al2"
         [{ url := "u", album_title := "t", artist_name := "n" }],
       Event.processEvents, Event.sleep 100,
       Event.processEvents, Event.sleep 100,
       Event.albumFound "Y" "B" "al2/cover.jpg" true []] := by
  have h := (run_waits_for_selection exEnvC8 exAlbumC8 (by decide) (by decide)).1
  exact h.trans (by decide)

end AlbumCover
